import Mathlib

/-!
Shallow embedding of the CNCC document-management backend's
edit-permission lifecycle: the `canEdit` permission evaluator
(src/middleware/auth.js), the per-document-type controllers
(purchaseOrderController.js, invoiceController.js,
stockRegisterController.js) and the edit-request workflow
(editRequestController.js), over the Prisma data model
(prisma/schema.prisma).

Timestamps are modelled as integer milliseconds since the epoch
(JavaScript `Date.getTime()` semantics).  Fallible controller
actions are modelled as `Except`-valued functions over an explicit
database state; Prisma's `$transaction` gives the approve workflow
all-or-nothing semantics, which the embedding realises by returning
either a fully updated state or an error (in which case the caller
keeps the pre-call state).
-/

namespace Cncc

/-- The 24-hour initial edit window, `24 * 60 * 60 * 1000` ms
(auth.js `initialWindowMs`, purchaseOrderController.js inline check). -/
def initialWindowMs : Int := 24 * 60 * 60 * 1000

/-- `DEFAULT_EDIT_DURATION_MS` from editRequestController.js: 24 hours in ms. -/
def DEFAULT_EDIT_DURATION_MS : Int := 24 * 60 * 60 * 1000

/-- `Role` enum from prisma/schema.prisma. -/
inductive Role where
  | ADMIN
  | USER
deriving DecidableEq, Repr

/-- The authenticated user attached to a request by the `auth` middleware
(auth.js selects `id`, `username`, `role`; only `id` and `role` feed the
permission logic). -/
structure AuthUser where
  id : String
  role : Role
deriving DecidableEq, Repr

/-- The permission-relevant projection of an Invoice / PurchaseOrder /
StockRegister row (prisma/schema.prisma): the `canEdit` middleware selects
exactly `userId`, `createdAt`, `allowEditing`, `editableUntil`.
`editableUntil` is nullable (`DateTime?`). -/
structure Document where
  id : String
  userId : String
  createdAt : Int
  allowEditing : Bool
  editableUntil : Option Int
deriving DecidableEq, Repr

/-- auth.js: `isWithinInitialWindow = (now.getTime() - new
Date(document.createdAt).getTime()) < initialWindowMs`. -/
def isWithinInitialWindow (doc : Document) (now : Int) : Bool :=
  now - doc.createdAt < initialWindowMs

/-- auth.js: `hasValidAdminPermission = document.allowEditing &&
(!document.editableUntil || now < new Date(document.editableUntil))`.
A `null` column is falsy; a Date object is always truthy. -/
def hasValidAdminPermission (doc : Document) (now : Int) : Bool :=
  doc.allowEditing &&
    (match doc.editableUntil with
     | none => true
     | some t => now < t)

/-- The decision of the `canEdit` middleware (auth.js) for a found document:
admins are always allowed; the owner is allowed within the initial window or
with a valid admin grant; everyone else is denied. -/
def canEditAllowed (doc : Document) (u : AuthUser) (now : Int) : Bool :=
  if u.role = Role.ADMIN then true
  else if u.id = doc.userId then
    isWithinInitialWindow doc now || hasValidAdminPermission doc now
  else false

/-- auth.js: `needsPermission = isOwner && !isWithinInitialWindow &&
!document.allowEditing`, reported on a 403 denial. -/
def needsPermissionRequest (doc : Document) (u : AuthUser) (now : Int) : Bool :=
  (if u.id = doc.userId then true else false) &&
    !isWithinInitialWindow doc now && !doc.allowEditing

/-- The inline permission check repeated in purchaseOrderController.js
`updatePurchaseOrder` (and in the older auth.js revision of `canEdit`):
`isAdmin || (isOwner && (isWithin24Hours || existingPurchaseOrder.allowEditing))`
— it consults `allowEditing` but never `editableUntil`. -/
def canEditLegacyAllowed (doc : Document) (u : AuthUser) (now : Int) : Bool :=
  if u.role = Role.ADMIN then true
  else if u.id = doc.userId then
    isWithinInitialWindow doc now || doc.allowEditing
  else false

/-- The effective permission on `PUT /api/purchase-orders/:id`
(purchaseOrderRoutes.js): the `canEdit` middleware runs first and the
controller's inline legacy check runs second, so the request is allowed
iff both pass. -/
def updatePurchaseOrderAllowed (doc : Document) (u : AuthUser) (now : Int) : Bool :=
  canEditAllowed doc u now && canEditLegacyAllowed doc u now

/-- The spec's wording of the owner-side predicate (§4.2 / P1):
`now < createdAt + 24h` OR (`allowEditing` AND (`editableUntil` is null OR
`now < editableUntil`)). -/
def specOwnerEditPredicate (doc : Document) (now : Int) : Prop :=
  now < doc.createdAt + initialWindowMs ∨
    (doc.allowEditing = true ∧
      (doc.editableUntil = none ∨ ∃ t, doc.editableUntil = some t ∧ now < t))

instance (doc : Document) (now : Int) : Decidable (specOwnerEditPredicate doc now) := by
  unfold specOwnerEditPredicate
  cases doc.editableUntil <;> simp <;> infer_instance

end Cncc

namespace Cncc

/-! ### Edit-request workflow state machine -/

/-- `EditRequestStatus` enum from prisma/schema.prisma. -/
inductive EditRequestStatus where
  | PENDING
  | APPROVED
  | REJECTED
deriving DecidableEq, Repr

/-- The document type dispatched on by `createEditRequest`
(editRequestController.js `switch (documentType)`). -/
inductive DocType where
  | invoice
  | purchaseOrder
  | stockRegister
deriving DecidableEq, Repr

/-- An `EditRequest` row (prisma/schema.prisma): status defaults to
PENDING, `responseMessage`/`adminUserId` null until resolved, exactly one
of the three nullable document foreign keys populated by the application. -/
structure EditRequest where
  id : String
  status : EditRequestStatus
  requestMessage : Option String
  responseMessage : Option String
  invoiceId : Option String
  purchaseOrderId : Option String
  stockRegisterId : Option String
  requestedById : String
  adminUserId : Option String
  createdAt : Int
  updatedAt : Int
deriving DecidableEq, Repr

/-- The persistent store: the three document tables and the
`edit_requests` table. -/
structure DB where
  invoices : List Document
  purchaseOrders : List Document
  stockRegisters : List Document
  editRequests : List EditRequest
deriving DecidableEq, Repr

/-- `prisma.<table>.findUnique({ where: { id } })` over a document table. -/
def findDoc (tbl : List Document) (docId : String) : Option Document :=
  tbl.find? (fun d => d.id == docId)

/-- `prisma.editRequest.findUnique({ where: { id } })`. -/
def findReq (db : DB) (reqId : String) : Option EditRequest :=
  db.editRequests.find? (fun r => r.id == reqId)

/-- `prisma.<table>.update({ where: { id }, data })` over a document table:
rewrites the row(s) whose id matches. -/
def updateDocTable (tbl : List Document) (docId : String)
    (f : Document → Document) : List Document :=
  tbl.map (fun d => if d.id = docId then f d else d)

/-- `prisma.editRequest.update({ where: { id }, data })`. -/
def updateReqTable (tbl : List EditRequest) (reqId : String)
    (f : EditRequest → EditRequest) : List EditRequest :=
  tbl.map (fun r => if r.id = reqId then f r else r)

/-- The document table a `DocType` names. -/
def DB.table (db : DB) : DocType → List Document
  | .invoice => db.invoices
  | .purchaseOrder => db.purchaseOrders
  | .stockRegister => db.stockRegisters

/-- The value of the edit-request foreign-key column for a given document
type (`invoiceId` / `purchaseOrderId` / `stockRegisterId`). -/
def EditRequest.fk (r : EditRequest) : DocType → Option String
  | .invoice => r.invoiceId
  | .purchaseOrder => r.purchaseOrderId
  | .stockRegister => r.stockRegisterId

/-- The row `createEditRequest` inserts: `data = { requestMessage,
requestedById, <fk>Id }`; `status` defaults to PENDING and
`responseMessage`/`adminUserId` to null (prisma/schema.prisma). -/
def newEditRequest (newId : String) (dt : DocType) (documentId : String)
    (requestMessage : Option String) (requestedById : String) (now : Int) :
    EditRequest :=
  { id := newId
    status := .PENDING
    requestMessage := requestMessage
    responseMessage := none
    invoiceId := if dt = .invoice then some documentId else none
    purchaseOrderId := if dt = .purchaseOrder then some documentId else none
    stockRegisterId := if dt = .stockRegister then some documentId else none
    requestedById := requestedById
    adminUserId := none
    createdAt := now
    updatedAt := now }

/-- prisma/schema.prisma puts `@unique` on each of `invoiceId`,
`purchaseOrderId` and `stockRegisterId`: an insert whose populated
foreign key equals the (non-null) foreign key of any existing row raises
Prisma error P2002. -/
def fkUniqueViolation (db : DB) (dt : DocType) (documentId : String) : Bool :=
  db.editRequests.any (fun r => r.fk dt == some documentId)

/-- Errors of the shared `createEditRequest` controller
(editRequestController.js), with the HTTP statuses it maps them to. -/
inductive CreateReqErr where
  | missingFields       -- 400: type, id or requestMessage absent/empty
  | notFound            -- 404: document does not exist
  | notOwner            -- 403: requester is not the document owner
  | alreadyPending      -- 400: a PENDING request for the document exists
  | uniqueViolation     -- 409: Prisma P2002 on the @unique foreign key
deriving DecidableEq, Repr

/-- HTTP status `createEditRequest` responds with for each error. -/
def CreateReqErr.httpStatus : CreateReqErr → Nat
  | .missingFields => 400
  | .notFound => 404
  | .notOwner => 403
  | .alreadyPending => 400
  | .uniqueViolation => 409

/-- The shared `createEditRequest` controller (editRequestController.js):
validate inputs, find the document and verify ownership, refuse if a
PENDING request by this requester for this document exists (400), then
insert — an insert conflicting with the schema's `@unique` foreign key
raises P2002, answered with 409.  On success (201) the new request is
appended.  `requestMessage = none` models a missing/empty (falsy) body
field. -/
def createEditRequest (db : DB) (dt : DocType) (documentId : String)
    (requestMessage : Option String) (requestedById : String)
    (newId : String) (now : Int) : Except CreateReqErr (DB × EditRequest) :=
  if documentId = "" ∨ requestMessage = none ∨ requestMessage = some "" then
    .error .missingFields
  else
    match findDoc (db.table dt) documentId with
    | none => .error .notFound
    | some doc =>
      if doc.userId ≠ requestedById then
        .error .notOwner
      else if db.editRequests.any (fun r =>
          r.status == EditRequestStatus.PENDING && r.requestedById == requestedById &&
            r.fk dt == some documentId) then
        .error .alreadyPending
      else if fkUniqueViolation db dt documentId then
        .error .uniqueViolation
      else
        let r := newEditRequest newId dt documentId requestMessage requestedById now
        .ok ({ db with editRequests := db.editRequests ++ [r] }, r)

/-- Errors of the purchase-order-specific `requestEditPermission`
(purchaseOrderController.js), with the statuses its handler produces. -/
inductive PoRequestErr where
  | notFound            -- 404: purchase order does not exist
  | notOwner            -- 403: caller is not the owner
  | stillWithinWindow   -- 400: still inside the 24-hour edit window
  | serverError         -- 500: the insert threw (e.g. P2002 is not handled)
deriving DecidableEq, Repr

/-- HTTP status `requestEditPermission` responds with for each error. -/
def PoRequestErr.httpStatus : PoRequestErr → Nat
  | .notFound => 404
  | .notOwner => 403
  | .stillWithinWindow => 400
  | .serverError => 500

/-- `requestEditPermission` from purchaseOrderController.js (wired to
`POST /api/purchase-orders/:id/request-edit`): find the order, verify
ownership, refuse with 400 while the 24-hour window is open, then insert
directly — with no pending-duplicate check and no P2002 handler, so a
conflicting insert surfaces as a 500 server error. -/
def requestEditPermissionPO (db : DB) (poId : String)
    (requestMessage : Option String) (userId : String)
    (newId : String) (now : Int) : Except PoRequestErr (DB × EditRequest) :=
  match findDoc db.purchaseOrders poId with
  | none => .error .notFound
  | some po =>
    if po.userId ≠ userId then
      .error .notOwner
    else if isWithinInitialWindow po now then
      .error .stillWithinWindow
    else if fkUniqueViolation db .purchaseOrder poId then
      .error .serverError
    else
      let r := newEditRequest newId .purchaseOrder poId requestMessage userId now
      .ok ({ db with editRequests := db.editRequests ++ [r] }, r)

/-- Errors of `approveEditRequest` (editRequestController.js), with the
statuses its catch block maps them to. -/
inductive ApproveErr where
  | notFound                              -- 404: edit request not found
  | alreadyResolved (st : EditRequestStatus)  -- 400: `Request already {status}`
  | invalidRequest                        -- 400: no document FK populated
  | serverError                           -- 500: e.g. document row missing
deriving DecidableEq, Repr

/-- HTTP status `approveEditRequest` responds with for each error. -/
def ApproveErr.httpStatus : ApproveErr → Nat
  | .notFound => 404
  | .alreadyResolved _ => 400
  | .invalidRequest => 400
  | .serverError => 500

/-- Apply the admin grant to a document row:
`data: { allowEditing: true, editableUntil }`. -/
def applyGrant (until_ : Int) (d : Document) : Document :=
  { d with allowEditing := true, editableUntil := some until_ }

/-- The edit-request update `approveEditRequest` performs:
`data: { status: 'APPROVED', responseMessage, adminUserId, updatedAt }`.
Prisma skips an `undefined` `responseMessage` (modelled by `none`),
keeping the stored value. -/
def approveUpd (adminUserId : String) (responseMessage : Option String)
    (now : Int) (q : EditRequest) : EditRequest :=
  { q with
      status := .APPROVED
      responseMessage := match responseMessage with
        | none => q.responseMessage
        | some m => some m
      adminUserId := some adminUserId
      updatedAt := now }

/-- The edit-request update `rejectEditRequest` performs:
`data: { status: 'REJECTED', responseMessage, adminUserId, updatedAt }`. -/
def rejectUpd (adminUserId : String) (responseMessage : String)
    (now : Int) (q : EditRequest) : EditRequest :=
  { q with
      status := .REJECTED
      responseMessage := some responseMessage
      adminUserId := some adminUserId
      updatedAt := now }

/-- `approveEditRequest` (editRequestController.js): inside one
`prisma.$transaction`, load the request (404 if absent, 400 if not
PENDING), compute `editableUntil = now + DEFAULT_EDIT_DURATION_MS`, grant
the referenced document (`allowEditing = true`, `editableUntil`), picking
the table by the first populated foreign key, then mark the request
APPROVED with `responseMessage`, `adminUserId` and `updatedAt = now`.
Any error aborts the transaction, so the caller's state is unchanged:
an `Except.error` result carries no new state. A `responseMessage` of
`none` models an absent body field, which Prisma skips (the stored value
is kept). -/
def approveEditRequest (db : DB) (reqId : String) (adminUserId : String)
    (responseMessage : Option String) (now : Int) :
    Except ApproveErr (DB × EditRequest) :=
  match findReq db reqId with
  | none => .error .notFound
  | some r =>
    if r.status ≠ .PENDING then
      .error (.alreadyResolved r.status)
    else
      let editableUntil := now + DEFAULT_EDIT_DURATION_MS
      let upd := approveUpd adminUserId responseMessage now
      match r.invoiceId with
      | some docId =>
        if (findDoc db.invoices docId).isNone then .error .serverError
        else
          let db' := { db with
            invoices := updateDocTable db.invoices docId (applyGrant editableUntil),
            editRequests := updateReqTable db.editRequests reqId upd }
          .ok (db', upd r)
      | none =>
        match r.purchaseOrderId with
        | some docId =>
          if (findDoc db.purchaseOrders docId).isNone then .error .serverError
          else
            let db' := { db with
              purchaseOrders := updateDocTable db.purchaseOrders docId (applyGrant editableUntil),
              editRequests := updateReqTable db.editRequests reqId upd }
            .ok (db', upd r)
        | none =>
          match r.stockRegisterId with
          | some docId =>
            if (findDoc db.stockRegisters docId).isNone then .error .serverError
            else
              let db' := { db with
                stockRegisters := updateDocTable db.stockRegisters docId (applyGrant editableUntil),
                editRequests := updateReqTable db.editRequests reqId upd }
              .ok (db', upd r)
          | none => .error .invalidRequest

/-- Errors of `rejectEditRequest` (editRequestController.js). -/
inductive RejectErr where
  | missingReason                             -- 400: responseMessage required
  | notFound                                  -- 404: edit request not found
  | alreadyResolved (st : EditRequestStatus)  -- 400: already approved/rejected
deriving DecidableEq, Repr

/-- HTTP status `rejectEditRequest` responds with for each error. -/
def RejectErr.httpStatus : RejectErr → Nat
  | .missingReason => 400
  | .notFound => 404
  | .alreadyResolved _ => 400

/-- `rejectEditRequest` (editRequestController.js): a non-empty
`responseMessage` is required up front (400), then load the request (404
if absent, 400 if not PENDING) and update the edit request only —
`status = REJECTED`, `responseMessage`, `adminUserId`, `updatedAt = now`.
No document table is touched. The empty string models a missing/empty
(falsy) `responseMessage`. -/
def rejectEditRequest (db : DB) (reqId : String) (adminUserId : String)
    (responseMessage : String) (now : Int) :
    Except RejectErr (DB × EditRequest) :=
  if responseMessage = "" then
    .error .missingReason
  else
    match findReq db reqId with
    | none => .error .notFound
    | some r =>
      if r.status ≠ .PENDING then
        .error (.alreadyResolved r.status)
      else
        let upd := rejectUpd adminUserId responseMessage now
        .ok ({ db with editRequests := updateReqTable db.editRequests reqId upd },
             upd r)

/-- The permission-relevant fields of the row `createPurchaseOrder`
(purchaseOrderController.js) inserts: it passes
`editableUntil: new Date(Date.now() + 24 * 60 * 60 * 1000)` explicitly,
while `allowEditing` keeps its schema default `false` and `createdAt`
defaults to `now()`. -/
def createPurchaseOrderDoc (id userId : String) (now : Int) : Document :=
  { id := id
    userId := userId
    createdAt := now
    allowEditing := false
    editableUntil := some (now + 24 * 60 * 60 * 1000) }

/-- The permission-relevant fields of the row `createInvoice`
(invoiceController.js) inserts: neither `allowEditing` nor
`editableUntil` appears in the data, so both keep their schema defaults
(`false`, null). -/
def createInvoiceDoc (id userId : String) (now : Int) : Document :=
  { id := id
    userId := userId
    createdAt := now
    allowEditing := false
    editableUntil := none }

/-- The permission-relevant fields of the row `createStockRegister`
(stockRegisterController.js) inserts: `allowEditing` and `editableUntil`
keep their schema defaults (`false`, null). -/
def createStockRegisterDoc (id userId : String) (now : Int) : Document :=
  { id := id
    userId := userId
    createdAt := now
    allowEditing := false
    editableUntil := none }

/-- The state observed after an `approveEditRequest` call: the
transaction's state on commit, the untouched pre-call state on any error
(Prisma rolls the transaction back). -/
def approveOutcomeDB (db : DB) (reqId adminUserId : String)
    (responseMessage : Option String) (now : Int) : DB :=
  match approveEditRequest db reqId adminUserId responseMessage now with
  | .ok (db', _) => db'
  | .error _ => db

/-- The state observed after a `rejectEditRequest` call: the updated
state on success, the untouched pre-call state on any error. -/
def rejectOutcomeDB (db : DB) (reqId adminUserId : String)
    (responseMessage : String) (now : Int) : DB :=
  match rejectEditRequest db reqId adminUserId responseMessage now with
  | .ok (db', _) => db'
  | .error _ => db

/-- An edit request's `requestedById` matches the owner (`userId`) of
every document row its foreign keys reference. -/
def reqOwnerOk (db : DB) (r : EditRequest) : Prop :=
  ∀ (dt : DocType) (docId : String) (d : Document),
    r.fk dt = some docId → findDoc (db.table dt) docId = some d →
      r.requestedById = d.userId

/-- Invariant: every persisted edit request was filed by the owner of its
target document. -/
def requesterInvariant (db : DB) : Prop :=
  ∀ r ∈ db.editRequests, reqOwnerOk db r

/-! ### Concrete sample states used to evaluate the model -/

/-- A purchase order owned by `u1`, created at time 0, no grant. -/
def samplePO : Document :=
  { id := "PO1", userId := "u1", createdAt := 0,
    allowEditing := false, editableUntil := none }

/-- A PENDING edit request by `u1` for `samplePO`. -/
def sampleReq : EditRequest :=
  { id := "r1", status := .PENDING, requestMessage := some "please",
    responseMessage := none, invoiceId := none,
    purchaseOrderId := some "PO1", stockRegisterId := none,
    requestedById := "u1", adminUserId := none, createdAt := 0, updatedAt := 0 }

/-- A store holding `samplePO` and its pending `sampleReq`. -/
def sampleDB : DB :=
  { invoices := [], purchaseOrders := [samplePO],
    stockRegisters := [], editRequests := [sampleReq] }

/-- `samplePO` after the admin grant of `approveEditRequest` at time 100. -/
def samplePOGranted : Document :=
  { id := "PO1", userId := "u1", createdAt := 0,
    allowEditing := true, editableUntil := some 86400100 }

/-- `sampleReq` after approval by admin `a1` at time 100. -/
def sampleReqApproved : EditRequest :=
  { id := "r1", status := .APPROVED, requestMessage := some "please",
    responseMessage := some "ok", invoiceId := none,
    purchaseOrderId := some "PO1", stockRegisterId := none,
    requestedById := "u1", adminUserId := some "a1",
    createdAt := 0, updatedAt := 100 }

/-- `sampleDB` after `approveEditRequest sampleDB "r1" "a1" (some "ok") 100`. -/
def sampleDBApproved : DB :=
  { invoices := [], purchaseOrders := [samplePOGranted],
    stockRegisters := [], editRequests := [sampleReqApproved] }

/-- `sampleReq` after rejection by admin `a1` at time 50. -/
def sampleReqRejected : EditRequest :=
  { id := "r1", status := .REJECTED, requestMessage := some "please",
    responseMessage := some "no", invoiceId := none,
    purchaseOrderId := some "PO1", stockRegisterId := none,
    requestedById := "u1", adminUserId := some "a1",
    createdAt := 0, updatedAt := 50 }

/-- `sampleDB` after `rejectEditRequest sampleDB "r1" "a1" "no" 50`. -/
def sampleDBRejected : DB :=
  { invoices := [], purchaseOrders := [samplePO],
    stockRegisters := [], editRequests := [sampleReqRejected] }

/-- An invoice owned by `u1`, created at time 0, as `createInvoice` leaves
it (`allowEditing` false, `editableUntil` null). -/
def sampleInvoice : Document :=
  { id := "I1", userId := "u1", createdAt := 0,
    allowEditing := false, editableUntil := none }

/-- A store holding only `sampleInvoice`, with no edit requests. -/
def sampleInvoiceDB : DB :=
  { invoices := [sampleInvoice], purchaseOrders := [],
    stockRegisters := [], editRequests := [] }

end Cncc

namespace Cncc

/-! ### Theorems: permission evaluator -/

/-- The Boolean window check agrees with the spec's `now < createdAt + 24h`. -/
lemma isWithinInitialWindow_iff (doc : Document) (now : Int) :
    isWithinInitialWindow doc now = true ↔ now < doc.createdAt + initialWindowMs := by
  unfold isWithinInitialWindow initialWindowMs
  rw [decide_eq_true_eq]
  constructor <;> intro h <;> omega

/-- The Boolean grant check agrees with the spec's
`allowEditing ∧ (editableUntil null ∨ now < editableUntil)`. -/
lemma hasValidAdminPermission_iff (doc : Document) (now : Int) :
    hasValidAdminPermission doc now = true ↔
      doc.allowEditing = true ∧
        (doc.editableUntil = none ∨ ∃ t, doc.editableUntil = some t ∧ now < t) := by
  unfold hasValidAdminPermission
  cases h : doc.editableUntil with
  | none => simp [h]
  | some t => simp [h]

/-- For a non-admin owner, `canEdit` reduces to window-or-grant. -/
lemma canEditAllowed_owner (doc : Document) (u : AuthUser) (now : Int)
    (hrole : u.role = Role.USER) (hown : u.id = doc.userId) :
    canEditAllowed doc u now =
      (isWithinInitialWindow doc now || hasValidAdminPermission doc now) := by
  simp [canEditAllowed, hrole, hown]

/-- **C1.** For a non-admin owner, the `canEdit` middleware allows editing
iff `now < createdAt + 24h` or (`allowEditing` and (`editableUntil` null or
`now < editableUntil`)); and the purchase-order update path — the `canEdit`
middleware composed with the controller's inline legacy check — decides by
exactly the same predicate, for every user. -/
theorem canEdit_owner_iff_spec (doc : Document) (u : AuthUser) (now : Int)
    (hrole : u.role = Role.USER) (hown : u.id = doc.userId) :
    (canEditAllowed doc u now = true ↔ specOwnerEditPredicate doc now) ∧
    (∀ (d : Document) (v : AuthUser) (n : Int),
      updatePurchaseOrderAllowed d v n = canEditAllowed d v n) := by
  constructor
  · rw [canEditAllowed_owner doc u now hrole hown, Bool.or_eq_true,
      isWithinInitialWindow_iff, hasValidAdminPermission_iff]
    unfold specOwnerEditPredicate
    exact Iff.rfl
  · intro d v n
    unfold updatePurchaseOrderAllowed canEditAllowed canEditLegacyAllowed
    by_cases hadm : v.role = Role.ADMIN
    · simp [hadm]
    · by_cases how : v.id = d.userId
      · simp only [hadm, if_false, how, if_true]
        cases hw : isWithinInitialWindow d n <;>
          cases ha : d.allowEditing <;>
            cases he : d.editableUntil <;>
              simp [hasValidAdminPermission, ha, he]
      · simp [hadm, how]

/-- Witness for `canEdit_owner_iff_spec` at a concrete owner and document
outside the window with a still-valid grant. -/
theorem canEdit_owner_iff_spec_witness :
    ((AuthUser.mk "u1" Role.USER).role = Role.USER ∧
      (AuthUser.mk "u1" Role.USER).id = (Document.mk "d1" "u1" 0 true (some 200000000)).userId) ∧
    ((canEditAllowed (Document.mk "d1" "u1" 0 true (some 200000000))
        (AuthUser.mk "u1" Role.USER) 100000000 = true ↔
      specOwnerEditPredicate (Document.mk "d1" "u1" 0 true (some 200000000)) 100000000) ∧
    (∀ (d : Document) (v : AuthUser) (n : Int),
      updatePurchaseOrderAllowed d v n = canEditAllowed d v n)) :=
  ⟨⟨rfl, rfl⟩,
    canEdit_owner_iff_spec (Document.mk "d1" "u1" 0 true (some 200000000))
      (AuthUser.mk "u1" Role.USER) 100000000 rfl rfl⟩

/-- **C8.** An ADMIN actor always receives Allow from the edit-permission
check, for every document, time and window/grant state. -/
theorem canEdit_admin_always_allowed (doc : Document) (u : AuthUser) (now : Int)
    (hrole : u.role = Role.ADMIN) :
    canEditAllowed doc u now = true := by
  unfold canEditAllowed
  rw [hrole]
  simp

/-- Witness for `canEdit_admin_always_allowed`: an admin who does not own
a document whose window has expired and which has no grant. -/
theorem canEdit_admin_always_allowed_witness :
    (AuthUser.mk "a1" Role.ADMIN).role = Role.ADMIN ∧
    canEditAllowed (Document.mk "d1" "u1" 0 false none)
      (AuthUser.mk "a1" Role.ADMIN) 999999999999 = true :=
  ⟨rfl, canEdit_admin_always_allowed (Document.mk "d1" "u1" 0 false none)
    (AuthUser.mk "a1" Role.ADMIN) 999999999999 rfl⟩

/-! ### Helper lemmas about the list-backed store -/

/-- `find?` commutes with a map that does not disturb the predicate. -/
lemma find?_map_pres {α : Type} (g : α → α) (p : α → Bool)
    (h : ∀ a, p (g a) = p a) (l : List α) :
    (l.map g).find? p = (l.find? p).map g := by
  induction l with
  | nil => rfl
  | cons a l ih =>
    simp only [List.map_cons, List.find?]
    rw [h a]
    cases hp : p a with
    | true => rfl
    | false => simpa using ih

/-- Updating a request leaves it findable under the same id. -/
lemma find?_updateReqTable (tbl : List EditRequest) (reqId : String)
    (f : EditRequest → EditRequest) (hf : ∀ r, (f r).id = r.id)
    (r : EditRequest) (hfind : tbl.find? (fun q => q.id == reqId) = some r) :
    (updateReqTable tbl reqId f).find? (fun q => q.id == reqId) = some (f r) := by
  have hid : r.id = reqId := by
    have h := List.find?_some hfind
    simpa using h
  unfold updateReqTable
  rw [find?_map_pres (fun q => if q.id = reqId then f q else q)
      (fun q => q.id == reqId) ?_ tbl]
  · rw [hfind]
    simp [hid]
  · intro q
    by_cases hq : q.id = reqId
    · simp [hq, hf q]
    · simp [hq]

/-- Looking up any id in an updated document table sees the original row,
transformed when it was the updated one. -/
lemma findDoc_updateDocTable (tbl : List Document) (docId : String)
    (f : Document → Document) (hf : ∀ d, (f d).id = d.id) (y : String) :
    findDoc (updateDocTable tbl docId f) y =
      (findDoc tbl y).map (fun d => if d.id = docId then f d else d) := by
  unfold findDoc updateDocTable
  apply find?_map_pres
  intro d
  by_cases hd : d.id = docId
  · simp [hd, hf d]
  · simp [hd]

/-- A row that is not the updated one survives an update verbatim. -/
lemma mem_updateReqTable_of_ne (tbl : List EditRequest) (reqId : String)
    (f : EditRequest → EditRequest) (q : EditRequest)
    (hq : q ∈ tbl) (hne : q.id ≠ reqId) :
    q ∈ updateReqTable tbl reqId f := by
  unfold updateReqTable
  refine List.mem_map.mpr ⟨q, hq, ?_⟩
  simp [hne]

/-- Every row of an updated request table comes from the original table,
verbatim or transformed. -/
lemma mem_updateReqTable_inv (tbl : List EditRequest) (reqId : String)
    (f : EditRequest → EditRequest) (q' : EditRequest)
    (h : q' ∈ updateReqTable tbl reqId f) :
    ∃ q ∈ tbl, q' = q ∨ q' = f q := by
  unfold updateReqTable at h
  obtain ⟨q, hq, hmap⟩ := List.mem_map.mp h
  refine ⟨q, hq, ?_⟩
  by_cases hid : q.id = reqId
  · right; rw [← hmap]; simp [hid]
  · left; rw [← hmap]; simp [hid]

/-- `approveUpd` does not change the id, requester or foreign keys. -/
lemma approveUpd_preserves (a : String) (m : Option String) (n : Int)
    (q : EditRequest) :
    (approveUpd a m n q).id = q.id ∧
    (approveUpd a m n q).requestedById = q.requestedById ∧
    ∀ dt, (approveUpd a m n q).fk dt = q.fk dt := by
  refine ⟨rfl, rfl, ?_⟩
  intro dt
  cases dt <;> rfl

/-- `rejectUpd` does not change the id, requester or foreign keys. -/
lemma rejectUpd_preserves (a m : String) (n : Int) (q : EditRequest) :
    (rejectUpd a m n q).id = q.id ∧
    (rejectUpd a m n q).requestedById = q.requestedById ∧
    ∀ dt, (rejectUpd a m n q).fk dt = q.fk dt := by
  refine ⟨rfl, rfl, ?_⟩
  intro dt
  cases dt <;> rfl

/-- Replacing the request table does not affect the document tables. -/
lemma DB_table_set_editRequests (db : DB) (x : List EditRequest) (dt : DocType) :
    ({ db with editRequests := x } : DB).table dt = db.table dt := by
  cases dt <;> rfl

/-! ### Characterisation of a successful approval -/

/-- What a successful `approveEditRequest` commits: the request found in
the store was PENDING, the returned request is its `approveUpd` image,
it is findable in the new store, and the document named by its first
populated foreign key now carries the 24-hour grant. -/
lemma approve_ok_spec (db : DB) (reqId adminUserId : String)
    (responseMessage : Option String) (now : Int) (db' : DB) (r : EditRequest)
    (h : approveEditRequest db reqId adminUserId responseMessage now = .ok (db', r)) :
    r.status = .APPROVED ∧ r.adminUserId = some adminUserId ∧ r.updatedAt = now ∧
    findReq db' reqId = some r ∧
    ∃ (dt : DocType) (docId : String),
      r.fk dt = some docId ∧
      ∃ d, findDoc (db'.table dt) docId = some d ∧
        d.allowEditing = true ∧
        d.editableUntil = some (now + DEFAULT_EDIT_DURATION_MS) := by
  unfold approveEditRequest at h
  cases hfind : findReq db reqId with
  | none => rw [hfind] at h; exact absurd h (by simp)
  | some r0 =>
    rw [hfind] at h
    dsimp only at h
    by_cases hst : r0.status ≠ EditRequestStatus.PENDING
    · rw [if_pos hst] at h; exact absurd h (by simp)
    · rw [if_neg hst] at h
      cases hinv : r0.invoiceId with
      | some docId =>
        rw [hinv] at h
        dsimp only at h
        cases hdoc : findDoc db.invoices docId with
        | none => rw [hdoc] at h; exact absurd h (by simp)
        | some d0 =>
          rw [hdoc] at h
          simp only [Option.isNone_some, Bool.false_eq_true, if_false, Except.ok.injEq,
            Prod.mk.injEq] at h
          obtain ⟨hdb', hr⟩ := h
          subst hdb'; subst hr
          refine ⟨rfl, rfl, rfl, ?_, .invoice, docId, hinv, ?_⟩
          · exact find?_updateReqTable db.editRequests reqId (approveUpd adminUserId responseMessage now) (fun q => rfl) r0 hfind
          · refine ⟨applyGrant (now + DEFAULT_EDIT_DURATION_MS) d0, ?_, rfl, rfl⟩
            show findDoc (updateDocTable db.invoices docId _) docId = _
            rw [findDoc_updateDocTable db.invoices docId (applyGrant (now + DEFAULT_EDIT_DURATION_MS)) (fun d => rfl) docId, hdoc]
            have hid : d0.id = docId := by
              have := List.find?_some hdoc
              simpa using this
            simp [hid]
      | none =>
        rw [hinv] at h
        dsimp only at h
        cases hpo : r0.purchaseOrderId with
        | some docId =>
          rw [hpo] at h
          dsimp only at h
          cases hdoc : findDoc db.purchaseOrders docId with
          | none => rw [hdoc] at h; exact absurd h (by simp)
          | some d0 =>
            rw [hdoc] at h
            simp only [Option.isNone_some, Bool.false_eq_true, if_false, Except.ok.injEq,
              Prod.mk.injEq] at h
            obtain ⟨hdb', hr⟩ := h
            subst hdb'; subst hr
            refine ⟨rfl, rfl, rfl, ?_, .purchaseOrder, docId, hpo, ?_⟩
            · exact find?_updateReqTable db.editRequests reqId (approveUpd adminUserId responseMessage now) (fun q => rfl) r0 hfind
            · refine ⟨applyGrant (now + DEFAULT_EDIT_DURATION_MS) d0, ?_, rfl, rfl⟩
              show findDoc (updateDocTable db.purchaseOrders docId _) docId = _
              rw [findDoc_updateDocTable db.purchaseOrders docId (applyGrant (now + DEFAULT_EDIT_DURATION_MS)) (fun d => rfl) docId, hdoc]
              have hid : d0.id = docId := by
                have := List.find?_some hdoc
                simpa using this
              simp [hid]
        | none =>
          rw [hpo] at h
          dsimp only at h
          cases hsr : r0.stockRegisterId with
          | some docId =>
            rw [hsr] at h
            dsimp only at h
            cases hdoc : findDoc db.stockRegisters docId with
            | none => rw [hdoc] at h; exact absurd h (by simp)
            | some d0 =>
              rw [hdoc] at h
              simp only [Option.isNone_some, Bool.false_eq_true, if_false, Except.ok.injEq,
                Prod.mk.injEq] at h
              obtain ⟨hdb', hr⟩ := h
              subst hdb'; subst hr
              refine ⟨rfl, rfl, rfl, ?_, .stockRegister, docId, hsr, ?_⟩
              · exact find?_updateReqTable db.editRequests reqId (approveUpd adminUserId responseMessage now) (fun q => rfl) r0 hfind
              · refine ⟨applyGrant (now + DEFAULT_EDIT_DURATION_MS) d0, ?_, rfl, rfl⟩
                show findDoc (updateDocTable db.stockRegisters docId _) docId = _
                rw [findDoc_updateDocTable db.stockRegisters docId (applyGrant (now + DEFAULT_EDIT_DURATION_MS)) (fun d => rfl) docId, hdoc]
                have hid : d0.id = docId := by
                  have := List.find?_some hdoc
                  simpa using this
                simp [hid]
          | none =>
            rw [hsr] at h
            dsimp only at h
            exact absurd h (by simp)

/-! ### Claims about the approve/reject workflow -/

/-- **C2.** `approveEditRequest` runs inside one transaction: on success
the approved request and the granted document are observable together in
the committed state, and on any error the observable state is exactly the
pre-call state (the transaction rolled back), so a document is never left
granted with its request still PENDING, nor the reverse. -/
theorem approveRequest_atomic (db : DB) (reqId adminUserId : String)
    (responseMessage : Option String) (now : Int) :
    (∀ db' r, approveEditRequest db reqId adminUserId responseMessage now = .ok (db', r) →
      r.status = EditRequestStatus.APPROVED ∧ findReq db' reqId = some r ∧
      ∃ dt docId, r.fk dt = some docId ∧
        ∃ d, findDoc (db'.table dt) docId = some d ∧ d.allowEditing = true) ∧
    (∀ e, approveEditRequest db reqId adminUserId responseMessage now = .error e →
      approveOutcomeDB db reqId adminUserId responseMessage now = db) := by
  constructor
  · intro db' r h
    obtain ⟨h1, _, _, h4, dt, docId, h5, d, h6, h7, _⟩ :=
      approve_ok_spec db reqId adminUserId responseMessage now db' r h
    exact ⟨h1, h4, dt, docId, h5, d, h6, h7⟩
  · intro e he
    unfold approveOutcomeDB
    rw [he]

/-- Witness for `approveRequest_atomic`: approving the pending request of
`sampleDB` commits the APPROVED request and the granted document together. -/
theorem approveRequest_atomic_witness :
    sampleReqApproved.status = EditRequestStatus.APPROVED ∧
    findReq sampleDBApproved "r1" = some sampleReqApproved ∧
    ∃ dt docId, sampleReqApproved.fk dt = some docId ∧
      ∃ d, findDoc (sampleDBApproved.table dt) docId = some d ∧
        d.allowEditing = true :=
  (approveRequest_atomic sampleDB "r1" "a1" (some "ok") 100).1
    sampleDBApproved sampleReqApproved (by rfl)

/-- **C4.** A successful approval at time `now` leaves the target document
with `allowEditing = true` and `editableUntil = now + 24h`, and the
request APPROVED. -/
theorem approveRequest_grants_24h (db : DB) (reqId adminUserId : String)
    (responseMessage : Option String) (now : Int) (db' : DB) (r : EditRequest)
    (h : approveEditRequest db reqId adminUserId responseMessage now = .ok (db', r)) :
    r.status = EditRequestStatus.APPROVED ∧
    ∃ dt docId, r.fk dt = some docId ∧
      ∃ d, findDoc (db'.table dt) docId = some d ∧
        d.allowEditing = true ∧
        d.editableUntil = some (now + DEFAULT_EDIT_DURATION_MS) := by
  obtain ⟨h1, _, _, _, dt, docId, h5, d, h6, h7, h8⟩ :=
    approve_ok_spec db reqId adminUserId responseMessage now db' r h
  exact ⟨h1, dt, docId, h5, d, h6, h7, h8⟩

/-- Witness for `approveRequest_grants_24h` on the sample store at time 100. -/
theorem approveRequest_grants_24h_witness :
    sampleReqApproved.status = EditRequestStatus.APPROVED ∧
    ∃ dt docId, sampleReqApproved.fk dt = some docId ∧
      ∃ d, findDoc (sampleDBApproved.table dt) docId = some d ∧
        d.allowEditing = true ∧
        d.editableUntil = some ((100 : Int) + DEFAULT_EDIT_DURATION_MS) :=
  approveRequest_grants_24h sampleDB "r1" "a1" (some "ok") 100
    sampleDBApproved sampleReqApproved (by rfl)

/-- **C5.** A resolved (non-PENDING) edit request is terminal: any further
approve or reject call fails with the `already {status}` conflict error
and the observable state is unchanged. -/
theorem resolved_request_terminal (db : DB) (reqId adminUserId : String)
    (apMsg : Option String) (rjMsg : String) (now : Int) (r : EditRequest)
    (hfind : findReq db reqId = some r)
    (hst : r.status ≠ EditRequestStatus.PENDING) (hmsg : rjMsg ≠ "") :
    approveEditRequest db reqId adminUserId apMsg now =
      .error (.alreadyResolved r.status) ∧
    rejectEditRequest db reqId adminUserId rjMsg now =
      .error (.alreadyResolved r.status) ∧
    approveOutcomeDB db reqId adminUserId apMsg now = db ∧
    rejectOutcomeDB db reqId adminUserId rjMsg now = db := by
  have h1 : approveEditRequest db reqId adminUserId apMsg now =
      .error (.alreadyResolved r.status) := by
    unfold approveEditRequest
    rw [hfind]
    dsimp only
    rw [if_pos hst]
  have h2 : rejectEditRequest db reqId adminUserId rjMsg now =
      .error (.alreadyResolved r.status) := by
    unfold rejectEditRequest
    rw [if_neg hmsg, hfind]
    dsimp only
    rw [if_pos hst]
  refine ⟨h1, h2, ?_, ?_⟩
  · unfold approveOutcomeDB
    rw [h1]
  · unfold rejectOutcomeDB
    rw [h2]

/-- Witness for `resolved_request_terminal`: re-approving or rejecting the
already-approved request of `sampleDBApproved` fails and changes nothing. -/
theorem resolved_request_terminal_witness :
    (findReq sampleDBApproved "r1" = some sampleReqApproved ∧
      sampleReqApproved.status ≠ EditRequestStatus.PENDING ∧
      ("nope" : String) ≠ "") ∧
    (approveEditRequest sampleDBApproved "r1" "a2" (some "again") 500 =
        .error (.alreadyResolved sampleReqApproved.status) ∧
      rejectEditRequest sampleDBApproved "r1" "a2" "nope" 500 =
        .error (.alreadyResolved sampleReqApproved.status) ∧
      approveOutcomeDB sampleDBApproved "r1" "a2" (some "again") 500 =
        sampleDBApproved ∧
      rejectOutcomeDB sampleDBApproved "r1" "a2" "nope" 500 = sampleDBApproved) :=
  ⟨⟨rfl, by decide, by decide⟩,
    resolved_request_terminal sampleDBApproved "r1" "a2" (some "again") "nope" 500
      sampleReqApproved rfl (by decide) (by decide)⟩

/-- Inversion of a successful `rejectEditRequest`: the stored request was
PENDING, the result is its `rejectUpd` image, and only the request table
changed. -/
lemma reject_ok_shape (db : DB) (reqId adminUserId responseMessage : String)
    (now : Int) (db' : DB) (r : EditRequest)
    (h : rejectEditRequest db reqId adminUserId responseMessage now = .ok (db', r)) :
    ∃ r0, findReq db reqId = some r0 ∧ r0.status = EditRequestStatus.PENDING ∧
      r = rejectUpd adminUserId responseMessage now r0 ∧
      db' = { db with editRequests :=
        updateReqTable db.editRequests reqId (rejectUpd adminUserId responseMessage now) } := by
  unfold rejectEditRequest at h
  by_cases hm : responseMessage = ""
  · rw [if_pos hm] at h
    exact absurd h (by simp)
  · rw [if_neg hm] at h
    cases hfind : findReq db reqId with
    | none =>
      rw [hfind] at h
      exact absurd h (by simp)
    | some r0 =>
      rw [hfind] at h
      dsimp only at h
      by_cases hst : r0.status ≠ EditRequestStatus.PENDING
      · rw [if_pos hst] at h
        exact absurd h (by simp)
      · rw [if_neg hst] at h
        simp only [Except.ok.injEq, Prod.mk.injEq] at h
        obtain ⟨hdb', hr⟩ := h
        subst hdb'
        subst hr
        exact ⟨r0, rfl, not_not.mp hst, rfl, rfl⟩

/-- **C6.** `rejectEditRequest` refuses an empty `responseMessage` with a
400 validation error, and on success mutates only the edit request —
status REJECTED, response message, admin id, `updatedAt` — while every
document table, hence the owner's edit permission, is untouched. -/
theorem reject_requires_reason_only_mutates_request (db : DB)
    (reqId adminUserId msg : String) (now : Int) :
    rejectEditRequest db reqId adminUserId "" now = .error .missingReason ∧
    RejectErr.missingReason.httpStatus = 400 ∧
    (∀ db' r, rejectEditRequest db reqId adminUserId msg now = .ok (db', r) →
      db'.invoices = db.invoices ∧ db'.purchaseOrders = db.purchaseOrders ∧
      db'.stockRegisters = db.stockRegisters ∧
      ∃ r0, findReq db reqId = some r0 ∧
        r0.status = EditRequestStatus.PENDING ∧
        r = rejectUpd adminUserId msg now r0 ∧
        findReq db' reqId = some r ∧
        ∀ q ∈ db.editRequests, q.id ≠ reqId → q ∈ db'.editRequests) := by
  refine ⟨?_, rfl, ?_⟩
  · unfold rejectEditRequest
    rw [if_pos rfl]
  · intro db' r h
    obtain ⟨r0, hfind, hst, hr, hdb'⟩ :=
      reject_ok_shape db reqId adminUserId msg now db' r h
    subst hdb'
    refine ⟨rfl, rfl, rfl, r0, hfind, hst, hr, ?_, ?_⟩
    · rw [hr]
      exact find?_updateReqTable db.editRequests reqId
        (rejectUpd adminUserId msg now) (fun q => rfl) r0 hfind
    · intro q hq hne
      exact mem_updateReqTable_of_ne db.editRequests reqId _ q hq hne

/-- Witness for `reject_requires_reason_only_mutates_request`: rejecting
the pending request of `sampleDB` leaves all document tables as they were. -/
theorem reject_requires_reason_only_mutates_request_witness :
    sampleDBRejected.invoices = sampleDB.invoices ∧
    sampleDBRejected.purchaseOrders = sampleDB.purchaseOrders ∧
    sampleDBRejected.stockRegisters = sampleDB.stockRegisters ∧
    ∃ r0, findReq sampleDB "r1" = some r0 ∧
      r0.status = EditRequestStatus.PENDING ∧
      sampleReqRejected = rejectUpd "a1" "no" 50 r0 ∧
      findReq sampleDBRejected "r1" = some sampleReqRejected ∧
      ∀ q ∈ sampleDB.editRequests, q.id ≠ "r1" → q ∈ sampleDBRejected.editRequests :=
  (reject_requires_reason_only_mutates_request sampleDB "r1" "a1" "no" 50).2.2
    sampleDBRejected sampleReqRejected (by rfl)

/-! ### Ownership of edit requests (inversion and preservation lemmas) -/

/-- The foreign keys of a freshly inserted edit request name exactly the
document it was created for. -/
lemma newEditRequest_fk (newId : String) (dt : DocType) (documentId : String)
    (msg : Option String) (uid : String) (now : Int) (dt' : DocType) (x : String)
    (h : (newEditRequest newId dt documentId msg uid now).fk dt' = some x) :
    dt' = dt ∧ x = documentId := by
  cases dt <;> cases dt' <;>
    simp [newEditRequest, EditRequest.fk] at h <;>
    exact ⟨rfl, h.symm⟩

/-- `reqOwnerOk` only depends on the document tables. -/
lemma reqOwnerOk_of_tables_eq (db db' : DB) (r : EditRequest)
    (h : ∀ dt, db'.table dt = db.table dt) (hr : reqOwnerOk db r) :
    reqOwnerOk db' r := by
  intro dt docId d hfk hfd
  rw [h dt] at hfd
  exact hr dt docId d hfk hfd

/-- Inversion of a successful `createEditRequest`: the document exists,
the requester owns it, and the new request is appended verbatim. -/
lemma createEditRequest_ok_spec (db : DB) (dt : DocType) (documentId : String)
    (requestMessage : Option String) (requestedById newId : String) (now : Int)
    (db' : DB) (r : EditRequest)
    (h : createEditRequest db dt documentId requestMessage requestedById newId now =
      .ok (db', r)) :
    (∃ doc, findDoc (db.table dt) documentId = some doc ∧
      doc.userId = requestedById) ∧
    r = newEditRequest newId dt documentId requestMessage requestedById now ∧
    db' = { db with editRequests := db.editRequests ++ [r] } := by
  unfold createEditRequest at h
  by_cases hv : documentId = "" ∨ requestMessage = none ∨ requestMessage = some ""
  · rw [if_pos hv] at h
    exact absurd h (by simp)
  · rw [if_neg hv] at h
    cases hfind : findDoc (db.table dt) documentId with
    | none =>
      rw [hfind] at h
      exact absurd h (by simp)
    | some doc =>
      rw [hfind] at h
      dsimp only at h
      by_cases how : doc.userId ≠ requestedById
      · rw [if_pos how] at h
        exact absurd h (by simp)
      · rw [if_neg how] at h
        by_cases hp : (db.editRequests.any fun q =>
            q.status == EditRequestStatus.PENDING &&
              q.requestedById == requestedById &&
              q.fk dt == some documentId) = true
        · rw [if_pos hp] at h
          exact absurd h (by simp)
        · rw [if_neg hp] at h
          by_cases hu : fkUniqueViolation db dt documentId = true
          · rw [if_pos hu] at h
            exact absurd h (by simp)
          · rw [if_neg hu] at h
            simp only [Except.ok.injEq, Prod.mk.injEq] at h
            obtain ⟨hdb', hr⟩ := h
            subst hdb'
            subst hr
            exact ⟨⟨doc, rfl, not_not.mp how⟩, rfl, rfl⟩

/-- Inversion of a successful purchase-order `requestEditPermission`. -/
lemma requestEditPermissionPO_ok_spec (db : DB) (poId : String)
    (requestMessage : Option String) (userId newId : String) (now : Int)
    (db' : DB) (r : EditRequest)
    (h : requestEditPermissionPO db poId requestMessage userId newId now =
      .ok (db', r)) :
    (∃ po, findDoc db.purchaseOrders poId = some po ∧ po.userId = userId) ∧
    r = newEditRequest newId .purchaseOrder poId requestMessage userId now ∧
    db' = { db with editRequests := db.editRequests ++ [r] } := by
  unfold requestEditPermissionPO at h
  cases hfind : findDoc db.purchaseOrders poId with
  | none =>
    rw [hfind] at h
    exact absurd h (by simp)
  | some po =>
    rw [hfind] at h
    dsimp only at h
    by_cases how : po.userId ≠ userId
    · rw [if_pos how] at h
      exact absurd h (by simp)
    · rw [if_neg how] at h
      by_cases hw : isWithinInitialWindow po now = true
      · rw [if_pos hw] at h
        exact absurd h (by simp)
      · rw [if_neg hw] at h
        by_cases hu : fkUniqueViolation db .purchaseOrder poId = true
        · rw [if_pos hu] at h
          exact absurd h (by simp)
        · rw [if_neg hu] at h
          simp only [Except.ok.injEq, Prod.mk.injEq] at h
          obtain ⟨hdb', hr⟩ := h
          subst hdb'
          subst hr
          exact ⟨⟨po, rfl, not_not.mp how⟩, rfl, rfl⟩

/-- Appending a request filed by the verified owner preserves the
requester-is-owner invariant. -/
lemma append_newRequest_preserves_requesterInvariant
    (db : DB) (dt : DocType) (documentId : String) (msg : Option String)
    (uid newId : String) (now : Int) (doc : Document)
    (hfind : findDoc (db.table dt) documentId = some doc)
    (hown : doc.userId = uid) (hinv : requesterInvariant db) :
    requesterInvariant { db with editRequests :=
      db.editRequests ++ [newEditRequest newId dt documentId msg uid now] } := by
  intro q hq
  have htab : ∀ dt', ({ db with editRequests :=
      db.editRequests ++ [newEditRequest newId dt documentId msg uid now] } : DB).table dt' =
      db.table dt' :=
    fun dt' => DB_table_set_editRequests db _ dt'
  rcases List.mem_append.mp hq with hq1 | hq1
  · intro dt' docId' d hfk hfd
    rw [htab dt'] at hfd
    exact hinv q hq1 dt' docId' d hfk hfd
  · have hq2 : q = newEditRequest newId dt documentId msg uid now := by
      simpa using hq1
    subst hq2
    intro dt' docId' d hfk hfd
    rw [htab dt'] at hfd
    obtain ⟨hdt, hx⟩ := newEditRequest_fk newId dt documentId msg uid now dt' docId' hfk
    subst hdt
    subst hx
    have hdd : doc = d := Option.some.inj (hfind.symm.trans hfd)
    show uid = d.userId
    rw [← hdd, hown]

/-- Inversion of a successful approval describing the committed state:
the request table is the `approveUpd` rewrite and exactly one document
table receives the grant. -/
lemma approve_ok_shape (db : DB) (reqId adminUserId : String)
    (responseMessage : Option String) (now : Int) (db' : DB) (r : EditRequest)
    (h : approveEditRequest db reqId adminUserId responseMessage now = .ok (db', r)) :
    ∃ r0, findReq db reqId = some r0 ∧
      r = approveUpd adminUserId responseMessage now r0 ∧
      db'.editRequests = updateReqTable db.editRequests reqId
        (approveUpd adminUserId responseMessage now) ∧
      ∃ dt docId, r0.fk dt = some docId ∧
        ∀ dt', db'.table dt' =
          if dt' = dt then
            updateDocTable (db.table dt) docId
              (applyGrant (now + DEFAULT_EDIT_DURATION_MS))
          else db.table dt' := by
  unfold approveEditRequest at h
  cases hfind : findReq db reqId with
  | none =>
    rw [hfind] at h
    exact absurd h (by simp)
  | some r0 =>
    rw [hfind] at h
    dsimp only at h
    by_cases hst : r0.status ≠ EditRequestStatus.PENDING
    · rw [if_pos hst] at h
      exact absurd h (by simp)
    · rw [if_neg hst] at h
      cases hinv : r0.invoiceId with
      | some docId =>
        rw [hinv] at h
        dsimp only at h
        cases hdoc : findDoc db.invoices docId with
        | none =>
          rw [hdoc] at h
          exact absurd h (by simp)
        | some d0 =>
          rw [hdoc] at h
          simp only [Option.isNone_some, Bool.false_eq_true, if_false,
            Except.ok.injEq, Prod.mk.injEq] at h
          obtain ⟨hdb', hr⟩ := h
          subst hdb'
          subst hr
          refine ⟨r0, rfl, rfl, rfl, .invoice, docId, hinv, ?_⟩
          intro dt'
          cases dt' <;> simp [DB.table]
      | none =>
        rw [hinv] at h
        dsimp only at h
        cases hpo : r0.purchaseOrderId with
        | some docId =>
          rw [hpo] at h
          dsimp only at h
          cases hdoc : findDoc db.purchaseOrders docId with
          | none =>
            rw [hdoc] at h
            exact absurd h (by simp)
          | some d0 =>
            rw [hdoc] at h
            simp only [Option.isNone_some, Bool.false_eq_true, if_false,
              Except.ok.injEq, Prod.mk.injEq] at h
            obtain ⟨hdb', hr⟩ := h
            subst hdb'
            subst hr
            refine ⟨r0, rfl, rfl, rfl, .purchaseOrder, docId, hpo, ?_⟩
            intro dt'
            cases dt' <;> simp [DB.table]
        | none =>
          rw [hpo] at h
          dsimp only at h
          cases hsr : r0.stockRegisterId with
          | some docId =>
            rw [hsr] at h
            dsimp only at h
            cases hdoc : findDoc db.stockRegisters docId with
            | none =>
              rw [hdoc] at h
              exact absurd h (by simp)
            | some d0 =>
              rw [hdoc] at h
              simp only [Option.isNone_some, Bool.false_eq_true, if_false,
                Except.ok.injEq, Prod.mk.injEq] at h
              obtain ⟨hdb', hr⟩ := h
              subst hdb'
              subst hr
              refine ⟨r0, rfl, rfl, rfl, .stockRegister, docId, hsr, ?_⟩
              intro dt'
              cases dt' <;> simp [DB.table]
          | none =>
            rw [hsr] at h
            dsimp only at h
            exact absurd h (by simp)

/-- A successful approval preserves the requester-is-owner invariant:
neither `requestedById` nor any document's `userId` changes. -/
lemma approve_preserves_requesterInvariant (db : DB) (reqId adminUserId : String)
    (responseMessage : Option String) (now : Int) (db' : DB) (r : EditRequest)
    (h : approveEditRequest db reqId adminUserId responseMessage now = .ok (db', r))
    (hinv : requesterInvariant db) : requesterInvariant db' := by
  obtain ⟨r0, hfind, hr, hreqs, dt, docId, hfk0, htab⟩ :=
    approve_ok_shape db reqId adminUserId responseMessage now db' r h
  intro q' hq'
  rw [hreqs] at hq'
  obtain ⟨q, hq, hcase⟩ := mem_updateReqTable_inv db.editRequests reqId _ q' hq'
  have hqOk := hinv q hq
  intro dt' docId' d hfk hfd
  have hfkq : q.fk dt' = some docId' := by
    rcases hcase with h1 | h1
    · rw [h1] at hfk
      exact hfk
    · rw [h1] at hfk
      rw [← (approveUpd_preserves adminUserId responseMessage now q).2.2 dt']
      exact hfk
  have hrby : q'.requestedById = q.requestedById := by
    rcases hcase with h1 | h1
    · rw [h1]
    · rw [h1]
      exact (approveUpd_preserves adminUserId responseMessage now q).2.1
  rw [hrby]
  rw [htab dt'] at hfd
  by_cases hdt : dt' = dt
  · rw [if_pos hdt] at hfd
    rw [findDoc_updateDocTable (db.table dt) docId
        (applyGrant (now + DEFAULT_EDIT_DURATION_MS)) (fun d => rfl) docId'] at hfd
    cases hfd0 : findDoc (db.table dt) docId' with
    | none =>
      rw [hfd0] at hfd
      exact absurd hfd (by simp)
    | some d1 =>
      rw [hfd0] at hfd
      simp only [Option.map_some', Option.some.injEq] at hfd
      have hud : d.userId = d1.userId := by
        rw [← hfd]
        by_cases hi : d1.id = docId
        · simp [hi, applyGrant]
        · simp [hi]
      rw [hud]
      refine hqOk dt' docId' d1 hfkq ?_
      rw [hdt]
      exact hfd0
  · rw [if_neg hdt] at hfd
    exact hqOk dt' docId' d hfkq hfd

/-- A successful rejection preserves the requester-is-owner invariant. -/
lemma reject_preserves_requesterInvariant (db : DB)
    (reqId adminUserId responseMessage : String) (now : Int) (db' : DB)
    (r : EditRequest)
    (h : rejectEditRequest db reqId adminUserId responseMessage now = .ok (db', r))
    (hinv : requesterInvariant db) : requesterInvariant db' := by
  obtain ⟨r0, hfind, hst, hr, hdb'⟩ :=
    reject_ok_shape db reqId adminUserId responseMessage now db' r h
  subst hdb'
  intro q' hq'
  have hq'' : q' ∈ updateReqTable db.editRequests reqId
      (rejectUpd adminUserId responseMessage now) := hq'
  obtain ⟨q, hq, hcase⟩ := mem_updateReqTable_inv db.editRequests reqId _ q' hq''
  have hqOk := hinv q hq
  intro dt' docId' d hfk hfd
  rw [DB_table_set_editRequests db _ dt'] at hfd
  have hfkq : q.fk dt' = some docId' := by
    rcases hcase with h1 | h1
    · rw [h1] at hfk
      exact hfk
    · rw [h1] at hfk
      rw [← (rejectUpd_preserves adminUserId responseMessage now q).2.2 dt']
      exact hfk
  have hrby : q'.requestedById = q.requestedById := by
    rcases hcase with h1 | h1
    · rw [h1]
    · rw [h1]
      exact (rejectUpd_preserves adminUserId responseMessage now q).2.1
  rw [hrby]
  exact hqOk dt' docId' d hfkq hfd

/-- **C10.** Every persisted edit request is filed by the owner of its
target document: both creation paths answer Forbidden (403) to a
non-owner without persisting anything, a successful creation records the
owner as `requestedById`, and approval/rejection preserve the
requester-is-owner invariant across the whole store. -/
theorem edit_requests_filed_by_owner :
    (∀ (db : DB) (dt : DocType) (documentId m uid newId : String) (now : Int)
        (doc : Document),
      documentId ≠ "" → m ≠ "" →
      findDoc (db.table dt) documentId = some doc → doc.userId ≠ uid →
      createEditRequest db dt documentId (some m) uid newId now =
        .error .notOwner) ∧
    (∀ (db : DB) (poId : String) (m : Option String) (uid newId : String)
        (now : Int) (po : Document),
      findDoc db.purchaseOrders poId = some po → po.userId ≠ uid →
      requestEditPermissionPO db poId m uid newId now = .error .notOwner) ∧
    (∀ (db : DB) (dt : DocType) (documentId : String) (m : Option String)
        (uid newId : String) (now : Int) (db' : DB) (r : EditRequest),
      createEditRequest db dt documentId m uid newId now = .ok (db', r) →
      requesterInvariant db →
      r.requestedById = uid ∧ requesterInvariant db') ∧
    (∀ (db : DB) (poId : String) (m : Option String) (uid newId : String)
        (now : Int) (db' : DB) (r : EditRequest),
      requestEditPermissionPO db poId m uid newId now = .ok (db', r) →
      requesterInvariant db →
      r.requestedById = uid ∧ requesterInvariant db') ∧
    (∀ (db : DB) (reqId a : String) (m : Option String) (now : Int) (db' : DB)
        (r : EditRequest),
      approveEditRequest db reqId a m now = .ok (db', r) →
      requesterInvariant db → requesterInvariant db') ∧
    (∀ (db : DB) (reqId a m : String) (now : Int) (db' : DB) (r : EditRequest),
      rejectEditRequest db reqId a m now = .ok (db', r) →
      requesterInvariant db → requesterInvariant db') := by
  refine ⟨?_, ?_, ?_, ?_, ?_, ?_⟩
  · intro db dt documentId m uid newId now doc hid hm hfind hown
    unfold createEditRequest
    rw [if_neg ?_, hfind]
    · dsimp only
      rw [if_pos hown]
    · rintro (h1 | h1 | h1)
      · exact hid h1
      · exact Option.some_ne_none m h1
      · exact hm (Option.some.inj h1)
  · intro db poId m uid newId now po hfind hown
    unfold requestEditPermissionPO
    rw [hfind]
    dsimp only
    rw [if_pos hown]
  · intro db dt documentId m uid newId now db' r h hinv
    obtain ⟨⟨doc, hfind, hown⟩, hr, hdb'⟩ :=
      createEditRequest_ok_spec db dt documentId m uid newId now db' r h
    subst hdb'
    rw [hr]
    exact ⟨rfl, append_newRequest_preserves_requesterInvariant db dt documentId m
      uid newId now doc hfind hown hinv⟩
  · intro db poId m uid newId now db' r h hinv
    obtain ⟨⟨po, hfind, hown⟩, hr, hdb'⟩ :=
      requestEditPermissionPO_ok_spec db poId m uid newId now db' r h
    subst hdb'
    rw [hr]
    refine ⟨rfl, append_newRequest_preserves_requesterInvariant db .purchaseOrder
      poId m uid newId now po ?_ hown hinv⟩
    exact hfind
  · intro db reqId a m now db' r h hinv
    exact approve_preserves_requesterInvariant db reqId a m now db' r h hinv
  · intro db reqId a m now db' r h hinv
    exact reject_preserves_requesterInvariant db reqId a m now db' r h hinv

/-- Witness for `edit_requests_filed_by_owner`: a non-owner asking to edit
`samplePO` is refused with Forbidden. -/
theorem edit_requests_filed_by_owner_witness :
    (("PO1" : String) ≠ "" ∧ ("x" : String) ≠ "" ∧
      findDoc (sampleDB.table .purchaseOrder) "PO1" = some samplePO ∧
      samplePO.userId ≠ "intruder") ∧
    createEditRequest sampleDB .purchaseOrder "PO1" (some "x") "intruder"
      "r9" 999 = .error .notOwner :=
  ⟨⟨by decide, by decide, rfl, by decide⟩,
    edit_requests_filed_by_owner.1 sampleDB .purchaseOrder "PO1" "x" "intruder"
      "r9" 999 samplePO (by decide) (by decide) rfl (by decide)⟩

/-- **C3** (evaluated at the failing inputs): with the schema's `@unique`
foreign keys, a new request for a document whose previous request was
already resolved is refused with 409 instead of succeeding; a duplicate
pending request on the shared path yields 400, not 409; and the
purchase-order path, which never checks for a pending duplicate, surfaces
the constraint violation as a 500 server error. -/
theorem second_request_after_resolution_rejected :
    createEditRequest sampleDBApproved .purchaseOrder "PO1" (some "again")
      "u1" "r2" 200000000 = .error .uniqueViolation ∧
    CreateReqErr.uniqueViolation.httpStatus = 409 ∧
    createEditRequest sampleDB .purchaseOrder "PO1" (some "x") "u1" "r3"
      200000000 = .error .alreadyPending ∧
    CreateReqErr.alreadyPending.httpStatus = 400 ∧
    requestEditPermissionPO sampleDB "PO1" (some "again") "u1" "r2"
      200000000 = .error .serverError ∧
    PoRequestErr.serverError.httpStatus = 500 :=
  ⟨rfl, rfl, rfl, rfl, rfl, rfl⟩

/-- **C7** (counterexample): on the invoice path, a request-edit call made
by the owner while the document is still inside its 24-hour window does
not fail — the shared `createEditRequest` has no window check, so the
request is created (201) and persisted. -/
theorem invoice_request_edit_within_window_succeeds :
    isWithinInitialWindow sampleInvoice 1000 = true ∧
    createEditRequest sampleInvoiceDB .invoice "I1" (some "fix typo") "u1"
      "rq1" 1000 =
      .ok ({ sampleInvoiceDB with editRequests :=
              [newEditRequest "rq1" .invoice "I1" (some "fix typo") "u1" 1000] },
           newEditRequest "rq1" .invoice "I1" (some "fix typo") "u1" 1000) :=
  ⟨rfl, rfl⟩

/-- **C7** (amended): only the purchase-order request-edit path rejects a
within-window owner request, with a 400 validation error and nothing
persisted. -/
theorem po_request_edit_within_window_rejected (db : DB) (poId : String)
    (msg : Option String) (uid newId : String) (now : Int) (po : Document)
    (hfind : findDoc db.purchaseOrders poId = some po) (hown : po.userId = uid)
    (hwin : isWithinInitialWindow po now = true) :
    requestEditPermissionPO db poId msg uid newId now =
      .error .stillWithinWindow ∧
    PoRequestErr.stillWithinWindow.httpStatus = 400 := by
  constructor
  · unfold requestEditPermissionPO
    rw [hfind]
    dsimp only
    rw [if_neg (show ¬po.userId ≠ uid from fun hn => hn hown), if_pos hwin]
  · rfl

/-- Witness for `po_request_edit_within_window_rejected` one second after
creation of `samplePO`. -/
theorem po_request_edit_within_window_rejected_witness :
    (findDoc sampleDB.purchaseOrders "PO1" = some samplePO ∧
      samplePO.userId = "u1" ∧ isWithinInitialWindow samplePO 1000 = true) ∧
    (requestEditPermissionPO sampleDB "PO1" (some "please") "u1" "rq2" 1000 =
        .error .stillWithinWindow ∧
      PoRequestErr.stillWithinWindow.httpStatus = 400) :=
  ⟨⟨rfl, rfl, by decide⟩,
    po_request_edit_within_window_rejected sampleDB "PO1" (some "please") "u1"
      "rq2" 1000 samplePO rfl rfl (by decide)⟩

/-- **C9.** `createPurchaseOrder` initialises `editableUntil` to creation
time plus 24 hours with `allowEditing` still false, while invoice and
stock-register creation leave `editableUntil` null. -/
theorem document_creation_editableUntil (id uid : String) (now : Int) :
    (createPurchaseOrderDoc id uid now).editableUntil =
      some (now + 24 * 60 * 60 * 1000) ∧
    (createPurchaseOrderDoc id uid now).allowEditing = false ∧
    (createInvoiceDoc id uid now).editableUntil = none ∧
    (createInvoiceDoc id uid now).allowEditing = false ∧
    (createStockRegisterDoc id uid now).editableUntil = none ∧
    (createStockRegisterDoc id uid now).allowEditing = false :=
  ⟨rfl, rfl, rfl, rfl, rfl, rfl⟩

end Cncc



